import Mathlib

/-!
# Verification of the Superstore dashboard's ingestion/normalization pipeline

A shallow embedding of the data-handling core of `src/app.py`:
the loader (`load_data`), the date-disambiguation helper
(`smart_parse_datetime`), the normalizer (`preprocess`) and the row filter
(`apply_filters`), together with proofs of the specified properties.

Modelling conventions:
* A pandas `DataFrame` is a `Table`: a list of column names plus a list of
  rows, each row an association list from column name to `Value`.
* A cell `Value` is a string, an integer (numeric cells are modelled over
  `Int`), a datetime (`dt`), a calendar date (`date`), or `null`
  (pandas `NaN`/`NaT`).
* Python exceptions and `st.stop()` are modelled with `Except PyErr`.
* `pd.to_datetime(·, errors="coerce", dayfirst=b)` is modelled per element
  by `toDatetimeElem b`: slash-separated `D/M/Y` (or `M/D/Y`) strings parse
  under the ordering selected by the flag, already-parsed datetimes pass
  through, and anything unparseable coerces to `null`.
* `pd.to_numeric(·, errors="coerce")` is modelled per element by
  `toNumericElem`: integer literals parse, numbers pass through, anything
  else coerces to `null`.
-/

/-!
## Character-level text utilities

The Lean core string functions (`String.splitOn`, `String.trim`, …) are
defined by well-founded recursion, which the kernel cannot evaluate, so the
embedding uses its own structurally recursive equivalents over `List Char`.
-/

/-- Split a character list at every occurrence of a separator (Python
`str.split(sep)`): the empty list yields one empty field. -/
def splitOnChar (sep : Char) : List Char → List (List Char)
  | [] => [[]]
  | c :: cs =>
    if c = sep then [] :: splitOnChar sep cs
    else
      match splitOnChar sep cs with
      | [] => [[c]]
      | f :: rest => (c :: f) :: rest

/-- The numeric value of a decimal digit, `none` for any other character. -/
def digitVal (c : Char) : Option Nat :=
  if c.isDigit then some (c.toNat - 48) else none

/-- Parse a non-empty all-digit character list as a natural number. -/
def charsToNat (cs : List Char) : Option Nat :=
  match cs with
  | [] => none
  | _ =>
    cs.foldl
      (fun acc c =>
        match acc, digitVal c with
        | some n, some d => some (n * 10 + d)
        | _, _ => none)
      (some 0)

/-- Parse an optionally `-`-signed integer literal. -/
def charsToInt (cs : List Char) : Option Int :=
  match cs with
  | '-' :: rest => (charsToNat rest).map (fun n => -(n : Int))
  | _ => (charsToNat cs).map (fun n => (n : Int))

/-- Remove leading and trailing whitespace (Python `str.strip()`). -/
def trimChars (cs : List Char) : List Char :=
  ((cs.dropWhile Char.isWhitespace).reverse.dropWhile Char.isWhitespace).reverse

/-- `String.trim` over the embedding's structural helpers. -/
def trimStr (s : String) : String :=
  String.mk (trimChars s.data)

/-- Whether the list ends with the given suffix. -/
def endsWithChars (suffix cs : List Char) : Bool :=
  decide (cs.drop (cs.length - suffix.length) = suffix)

/-- Lower-case every character (Python `str.lower()`). -/
def toLowerStr (s : String) : String :=
  String.mk (s.data.map Char.toLower)

/-- A cell of a table: a raw string, a number (modelled over `Int`), a
parsed datetime (`dt`), a calendar date with the time component dropped
(`date`), or a missing value (`NaN`/`NaT`/`None`). -/
inductive Value where
  | str (s : String)
  | num (n : Int)
  | dt (code : Nat)
  | date (code : Nat)
  | null
deriving DecidableEq, Repr

/-- A row: an association list from column name to cell value. -/
def Row := List (String × Value)
deriving DecidableEq, Repr

/-- A dataframe: the column names and the rows. -/
structure Table where
  cols : List String
  rows : List Row
deriving DecidableEq, Repr

/-- Python exceptions and Streamlit control flow raised by the pipeline. -/
inductive PyErr where
  | fileNotFound (path : String)
  | typeError (kwarg : String)
  | keyError (col : String)
  | unicodeDecodeError
  | stopped (missingCol : String)
deriving DecidableEq, Repr

/-- Reading a cell of a row (`row[col]`): the stored value, `null` when the
row carries no entry for the column. -/
def getVal (r : Row) (c : String) : Value :=
  match r.lookup c with
  | some v => v
  | none => Value.null

/-- Writing one cell: replace the entry for the column in place, appending
it when absent (pandas column assignment). -/
def setEntry (r : Row) (c : String) (v : Value) : Row :=
  match r with
  | [] => [(c, v)]
  | (c', v') :: rest => if c' = c then (c, v) :: rest else (c', v') :: setEntry rest c v

/-- A whole column of the table, top to bottom (`df[col]`). -/
def getColVals (t : Table) (c : String) : List Value :=
  t.rows.map (fun r => getVal r c)

/-- `df[col] = series`: every row gets the corresponding value; the column
name is appended to the column list when new. -/
def setColVals (t : Table) (c : String) (vs : List Value) : Table :=
  { cols := if t.cols.contains c then t.cols else t.cols ++ [c],
    rows := List.zipWith (fun r v => setEntry r c v) t.rows vs }

/-- Day count of a month (with leap-year February), for date validation. -/
def daysInMonth (m y : Nat) : Nat :=
  if m = 2 then (if y % 4 = 0 ∧ (y % 100 ≠ 0 ∨ y % 400 = 0) then 29 else 28)
  else if m = 4 ∨ m = 6 ∨ m = 9 ∨ m = 11 then 30 else 31

/-- A calendar date packed as `y*10000 + m*100 + d` when the day/month pair
is valid, `none` otherwise. -/
def mkDateCode (d m y : Nat) : Option Nat :=
  if 1 ≤ m ∧ m ≤ 12 ∧ 1 ≤ d ∧ d ≤ daysInMonth m y then some (y * 10000 + m * 100 + d)
  else none

/-- Parsing one slash-separated date string under the ordering selected by
`dayfirst`: `a/b/y` reads day `a`, month `b` when `dayfirst`, else month
`a`, day `b`. -/
def parseDateStr (dayfirst : Bool) (s : String) : Option Nat :=
  match (splitOnChar '/' s.data).map charsToNat with
  | [some a, some b, some y] => if dayfirst then mkDateCode a b y else mkDateCode b a y
  | _ => none

/-- Element model of `pd.to_datetime(·, errors="coerce", dayfirst=·)`:
strings parse under the selected day/month ordering, datetimes and dates
pass through as datetimes, numbers are epoch offsets, failures and missing
values coerce to `null`. -/
def toDatetimeElem (dayfirst : Bool) (v : Value) : Value :=
  match v with
  | Value.str s =>
    match parseDateStr dayfirst s with
    | some code => Value.dt code
    | none => Value.null
  | Value.dt code => Value.dt code
  | Value.date code => Value.dt code
  | Value.num n => Value.dt n.toNat
  | Value.null => Value.null

/-- Element model of `pd.to_numeric(·, errors="coerce")`: integer literals
parse, numbers pass through, anything else coerces to `null`. -/
def toNumericElem (v : Value) : Value :=
  match v with
  | Value.str s =>
    match charsToInt s.data with
    | some n => Value.num n
    | none => Value.null
  | Value.num n => Value.num n
  | _ => Value.null

/-- `series.isna()` per element. -/
def isNullV (v : Value) : Bool :=
  match v with
  | Value.null => true
  | _ => false

/-- `series.isna().sum()`: how many entries are null. -/
def nullCount (vs : List Value) : Nat :=
  (vs.filter isNullV).length

/-- `series.isna().mean()` as a rational: the fraction of nulls (`0` for an
empty series, where pandas yields `NaN` — on either side, the `> 0.5` test
below is false). -/
def nullFrac (vs : List Value) : ℚ :=
  ((vs.filter isNullV).length : ℚ) / (vs.length : ℚ)

/-- The test `series.isna().mean() > 0.5` in integer form (cross-multiplied
so it computes without rational arithmetic); `nullFrac_gt_half` below proves
it equal to the fraction comparison. -/
def nullFracExceedsHalf (vs : List Value) : Bool :=
  decide (vs.length < 2 * nullCount vs)

/-- `smart_parse_datetime` (src/app.py:81-85): parse the column
month-first; when the null fraction of that attempt exceeds 0.5, re-parse
the same column day-first. -/
def smart_parse_datetime (series : List Value) : List Value :=
  let s1 := series.map (toDatetimeElem false)
  if nullFracExceedsHalf s1 then series.map (toDatetimeElem true) else s1

/-- `series.dt.date`: drop the time component of each datetime (`NaT` stays
missing). -/
def dtDateElem (v : Value) : Value :=
  match v with
  | Value.dt code => Value.date code
  | _ => Value.null

/-- `EXPECTED_COLS` (src/app.py:50-54). -/
def EXPECTED_COLS : List String :=
  ["Row ID", "Order ID", "Order Date", "Ship Date", "Ship Mode", "Customer ID",
   "Customer Name", "Segment", "Country", "City", "State", "Postal Code", "Region",
   "Product ID", "Category", "Sub-Category", "Product Name", "Sales", "Quantity",
   "Discount", "Profit"]

/-- One iteration of the date loop of `preprocess` (src/app.py:91-96):
`df[col] = smart_parse_datetime(df[col])` when the column exists, else
`st.error(...)` followed by `st.stop()` (modelled as the `stopped` error). -/
def parseDateCol (t : Table) (c : String) : Except PyErr Table :=
  if t.cols.contains c then
    Except.ok (setColVals t c (smart_parse_datetime (getColVals t c)))
  else Except.error (PyErr.stopped c)

/-- One iteration of the numeric loop of `preprocess` (src/app.py:98-100):
`df[col] = pd.to_numeric(df[col], errors="coerce")` when the column exists,
else skip. -/
def coerceNumCol (t : Table) (c : String) : Table :=
  if t.cols.contains c then setColVals t c ((getColVals t c).map toNumericElem) else t

/-- The numeric loop over `["Sales", "Profit", "Discount", "Quantity"]`. -/
def coerceNums (t : Table) : Table :=
  coerceNumCol (coerceNumCol (coerceNumCol (coerceNumCol t "Sales") "Profit") "Discount")
    "Quantity"

/-- The date loop over `["Order Date", "Ship Date"]`. -/
def parseDates (t : Table) : Except PyErr Table := do
  let t1 ← parseDateCol t "Order Date"
  parseDateCol t1 "Ship Date"

/-- Whether a row survives `dropna(subset=["Order Date", "Sales", "Profit"])`. -/
def keepRow (r : Row) : Bool :=
  ["Order Date", "Sales", "Profit"].all (fun c => !isNullV (getVal r c))

/-- `df.dropna(subset=subset)` (src/app.py:102): pandas raises `KeyError`
when a subset column is not among the table's columns; otherwise rows with a
null in any subset column are removed. -/
def dropnaSubset (t : Table) (subset : List String) : Except PyErr Table :=
  match subset.find? (fun c => !t.cols.contains c) with
  | some c => Except.error (PyErr.keyError c)
  | none =>
    Except.ok { cols := t.cols,
                rows := t.rows.filter (fun r => subset.all (fun c => !isNullV (getVal r c))) }

/-- `df["Order Date (Date)"] = df["Order Date"].dt.date` (src/app.py:103). -/
def addOrderDateDate (t : Table) : Table :=
  setColVals t "Order Date (Date)" ((getColVals t "Order Date").map dtDateElem)

/-- `preprocess` (src/app.py:88-104): parse the two date columns (fatal when
one is missing), coerce the four numeric columns (skipped when missing),
drop rows with a null mandatory field, then derive the calendar-date
column. -/
def preprocess (t : Table) : Except PyErr Table := do
  let t2 ← parseDates t
  let t3 := coerceNums t2
  let t4 ← dropnaSubset t3 ["Order Date", "Sales", "Profit"]
  Except.ok (addOrderDateDate t4)

/-- `df[col].isin(sel)` per row. -/
def isinSel (r : Row) (c : String) (sel : List String) : Bool :=
  sel.any (fun s => getVal r c = Value.str s)

/-- One conjunct of the mask of `apply_filters`: `if sel: mask &=
df[col].isin(sel)`. Python evaluates `df[col]` only when the selection list
is non-empty (an empty list is falsy); a missing column then raises
`KeyError`. -/
def dimMask (t : Table) (c : String) (sel : List String) : Except PyErr (List Bool) :=
  if sel.isEmpty then Except.ok (t.rows.map (fun _ => true))
  else if t.cols.contains c then
    Except.ok (t.rows.map (fun r => isinSel r c sel))
  else Except.error (PyErr.keyError c)

/-- Keep the rows whose mask bit is true (`df[mask]`). -/
def applyMask (rows : List Row) (mask : List Bool) : List Row :=
  match rows, mask with
  | r :: rs, b :: bs => if b then r :: applyMask rs bs else applyMask rs bs
  | _, _ => []

/-- `apply_filters` (src/app.py:107-115): a mask initialised to all-true,
intersected with a membership test per non-empty selection, then applied to
the rows. -/
def apply_filters (t : Table) (region_sel category_sel subcat_sel : List String) :
    Except PyErr Table := do
  let m1 ← dimMask t "Region" region_sel
  let m2 ← dimMask t "Category" category_sel
  let m3 ← dimMask t "Sub-Category" subcat_sel
  let mask := List.zipWith and (List.zipWith and m1 m2) m3
  Except.ok { cols := t.cols, rows := applyMask t.rows mask }

/-- An uploaded file: its name (used only to pick the decoder) and its raw
bytes. -/
structure Upload where
  name : String
  content : List Nat
deriving DecidableEq, Repr

/-- Whether a (lower-cased) file name selects the spreadsheet decoder. -/
def isSpreadsheetName (s : String) : Bool :=
  endsWithChars ".xlsx".data s.data || endsWithChars ".xls".data s.data

/-- Latin-1 decoding: every byte maps to the code point of the same number,
so decoding never fails. -/
def latin1Decode (bytes : List Nat) : String :=
  String.mk (bytes.map (fun b => Char.ofNat (b % 256)))

/-- Delimited-text parsing: the first line gives the column names, each
further non-empty line one row of string cells. -/
def csvParse (text : String) : Table :=
  match splitOnChar '\n' text.data with
  | [] => { cols := [], rows := [] }
  | hdr :: rest =>
    let cols := (splitOnChar ',' hdr).map String.mk
    { cols := cols,
      rows := (rest.filter (fun l => l ≠ [])).map
        (fun line => cols.zip (((splitOnChar ',' line).map String.mk).map Value.str)) }

/-- The keyword arguments `pandas.read_csv` accepts (beyond the positional
buffer). Encoding-error handling is selected by `encoding_errors`; there is
no keyword named `errors`. -/
def readCsvKeywords : List String :=
  ["sep", "delimiter", "header", "names", "index_col", "usecols", "dtype", "engine",
   "converters", "true_values", "false_values", "skipinitialspace", "skiprows",
   "skipfooter", "nrows", "na_values", "keep_default_na", "na_filter", "verbose",
   "skip_blank_lines", "parse_dates", "infer_datetime_format", "keep_date_col",
   "date_parser", "date_format", "dayfirst", "cache_dates", "iterator", "chunksize",
   "compression", "thousands", "decimal", "lineterminator", "quotechar", "quoting",
   "doublequote", "escapechar", "comment", "encoding", "encoding_errors", "dialect",
   "on_bad_lines", "delim_whitespace", "low_memory", "memory_map", "float_precision",
   "storage_options", "dtype_backend"]

/-- Model of `pandas.read_csv(buffer, encoding=..., **extra)`: a keyword
argument outside the accepted list raises `TypeError` before any byte is
read; with valid keywords the bytes are decoded (`latin-1` never fails;
`utf-8` is strict, modelled on the ASCII subset) and parsed. -/
def read_csv (content : List Nat) (encoding : String) (extraKwargs : List String) :
    Except PyErr Table :=
  match extraKwargs.find? (fun k => !readCsvKeywords.contains k) with
  | some k => Except.error (PyErr.typeError k)
  | none =>
    if encoding = "latin-1" then Except.ok (csvParse (latin1Decode content))
    else if content.all (fun b => b < 128) then Except.ok (csvParse (latin1Decode content))
    else Except.error PyErr.unicodeDecodeError

/-- The decode step of `load_data` (src/app.py:59-71): an upload dispatches
on its lower-cased name (spreadsheet decoder, or `read_csv` with
`encoding="utf-8"` **and the extra keyword `errors`**, exactly as the source
passes it); a path must exist and dispatches on its extension, the text
branch using `encoding="latin-1"` with no extra keyword. The spreadsheet
decoder `readExcel` is an uninterpreted parameter. -/
def decodeSource (readExcel : List Nat → Except PyErr Table)
    (fs : List (String × List Nat)) (file : String) (uploaded : Option Upload) :
    Except PyErr Table :=
  match uploaded with
  | some u =>
    if isSpreadsheetName (toLowerStr u.name) then readExcel u.content
    else read_csv u.content "utf-8" ["errors"]
  | none =>
    match fs.lookup file with
    | none => Except.error (PyErr.fileNotFound file)
    | some bytes =>
      if isSpreadsheetName (toLowerStr file) then readExcel bytes
      else read_csv bytes "latin-1" []

/-- `df.columns = [c.strip() for c in df.columns]` (src/app.py:74). -/
def stripCols (t : Table) : Table :=
  { cols := t.cols.map trimStr,
    rows := t.rows.map (fun r => r.map (fun kv => (trimStr kv.1, kv.2))) }

/-- `missing = [c for c in EXPECTED_COLS if c not in df.columns]`
(src/app.py:75). -/
def missingCols (t : Table) : List String :=
  EXPECTED_COLS.filter (fun c => !t.cols.contains c)

/-- `load_data` (src/app.py:57-78): decode the source, trim the column
names, and return the table together with the missing-column list (the
content of the non-fatal `st.warning`, empty when nothing is missing). -/
def load_data (readExcel : List Nat → Except PyErr Table)
    (fs : List (String × List Nat)) (file : String) (uploaded : Option Upload) :
    Except PyErr (Table × List String) := do
  let df ← decodeSource readExcel fs file uploaded
  let df2 := stripCols df
  Except.ok (df2, missingCols df2)

/-!
## General lemmas
-/

/-- The integer-form null test agrees with the rational mean comparison. -/
theorem nullFrac_gt_half (vs : List Value) :
    nullFrac vs > 1/2 ↔ nullFracExceedsHalf vs = true := by
  unfold nullFrac nullFracExceedsHalf nullCount
  simp only [decide_eq_true_eq]
  rcases Nat.eq_zero_or_pos vs.length with h | h
  · rw [List.length_eq_zero] at h
    subst h
    simp
  · have hl : (0 : ℚ) < (vs.length : ℚ) := by exact_mod_cast h
    rw [gt_iff_lt, div_lt_div_iff₀ (by norm_num) hl]
    constructor
    · intro hlt
      have hq : (vs.length : ℚ) < 2 * ((vs.filter isNullV).length : ℚ) := by linarith
      exact_mod_cast hq
    · intro hb
      have hq : (vs.length : ℚ) < 2 * ((vs.filter isNullV).length : ℚ) := by exact_mod_cast hb
      linarith

theorem zipWith_map_same {α β γ δ : Type} (h : β → γ → δ) (f : α → β) (g : α → γ)
    (l : List α) :
    List.zipWith h (l.map f) (l.map g) = l.map (fun x => h (f x) (g x)) := by
  induction l with
  | nil => rfl
  | cons a tl ih => simp [ih]

theorem applyMask_all_true (rows : List Row) :
    applyMask rows (rows.map (fun _ => true)) = rows := by
  induction rows with
  | nil => rfl
  | cons r tl ih => simpa [applyMask] using ih

/-- The all-true mask built by `apply_filters` from three empty selections
keeps every row. -/
theorem filters_empty_mask (rows : List Row) :
    applyMask rows
      (List.zipWith and
        (List.zipWith and (rows.map fun _ => true) (rows.map fun _ => true))
        (rows.map fun _ => true)) = rows := by
  induction rows with
  | nil => rfl
  | cons r tl ih => simpa [applyMask] using ih

/-!
## C1 and C10: the date-disambiguation threshold
-/

/-- C1: the disambiguation first maps the column through the month-first
parse; exactly when the null fraction of that attempt exceeds one half it
returns the day-first parse of the same column, and otherwise it returns
the month-first attempt itself. -/
theorem smart_parse_threshold (series : List Value) :
    smart_parse_datetime series =
      if nullFrac (series.map (toDatetimeElem false)) > 1/2 then
        series.map (toDatetimeElem true)
      else series.map (toDatetimeElem false) := by
  unfold smart_parse_datetime
  by_cases h : nullFrac (series.map (toDatetimeElem false)) > 1/2
  · rw [if_pos h, if_pos ((nullFrac_gt_half _).mp h)]
  · rw [if_neg h, if_neg (fun hb => h ((nullFrac_gt_half _).mpr hb))]

/-- C10: as soon as the month-first attempt is more than half null, the
day-first re-parse is returned unconditionally — its own null fraction is
never inspected and the month-first attempt is never restored. -/
theorem smart_parse_dayfirst_unconditional (series : List Value)
    (h : nullFrac (series.map (toDatetimeElem false)) > 1/2) :
    smart_parse_datetime series = series.map (toDatetimeElem true) := by
  unfold smart_parse_datetime
  rw [if_pos ((nullFrac_gt_half _).mp h)]

/-- A column on which the month-first attempt is 2/3 null and the day-first
re-parse is entirely null (`01/31/2016` parses month-first only). -/
def exColC10 : List Value :=
  [Value.str "01/31/2016", Value.str "99/99/2016", Value.str "99/99/2016"]

/-- Witness for C10 at a concrete column: the month-first nulls exceed one
half, day-first parses strictly fewer rows (all three null against two),
and the result is still the day-first parse. -/
theorem smart_parse_dayfirst_unconditional_witness :
    nullFrac (exColC10.map (toDatetimeElem false)) > 1/2 ∧
      nullCount (exColC10.map (toDatetimeElem false)) = 2 ∧
      nullCount (exColC10.map (toDatetimeElem true)) = 3 ∧
      smart_parse_datetime exColC10 = exColC10.map (toDatetimeElem true) :=
  ⟨(nullFrac_gt_half _).mpr (by decide), by decide, by decide,
    smart_parse_dayfirst_unconditional exColC10 ((nullFrac_gt_half _).mpr (by decide))⟩

/-!
## C5 and C2: filter semantics
-/

/-- C5: with all three selection sets empty, `apply_filters` returns the
table unchanged — an empty selection imposes no constraint and excludes
nothing. -/
theorem apply_filters_empty_sel (t : Table) :
    apply_filters t [] [] [] = Except.ok t := by
  unfold apply_filters dimMask
  simp only [List.isEmpty_nil, if_true, Bind.bind, Except.bind, filters_empty_mask]

/-- A table carrying a `Category` column but no `Region` column. -/
def tNoRegion : Table :=
  { cols := ["Category"], rows := [[("Category", Value.str "Chairs")]] }

/-- Counterexample to C2 as stated: on a table without a `Region` column
and the non-empty selection `["East"]`, the filter raises `KeyError`
instead of silently skipping the dimension. -/
theorem apply_filters_missing_column_cex :
    tNoRegion.cols.contains "Region" = false ∧
      apply_filters tNoRegion ["East"] [] [] = Except.error (PyErr.keyError "Region") :=
  ⟨rfl, rfl⟩

/-- C2 amended: a dimension is skipped only when its selection set is
empty; the filter succeeds exactly when every dimension with a non-empty
selection has its column present, and otherwise raises `KeyError` for a
missing demanded column. -/
theorem apply_filters_missing_column_amended (t : Table)
    (region_sel category_sel subcat_sel : List String) :
    (apply_filters t region_sel category_sel subcat_sel).isOk = true ↔
      ((region_sel = [] ∨ "Region" ∈ t.cols) ∧
       (category_sel = [] ∨ "Category" ∈ t.cols) ∧
       (subcat_sel = [] ∨ "Sub-Category" ∈ t.cols)) := by
  unfold apply_filters dimMask
  rcases region_sel with _ | ⟨r0, rtl⟩ <;>
    rcases category_sel with _ | ⟨c0, ctl⟩ <;>
      rcases subcat_sel with _ | ⟨s0, stl⟩ <;>
        by_cases hR : "Region" ∈ t.cols <;>
          by_cases hC : "Category" ∈ t.cols <;>
            by_cases hS : "Sub-Category" ∈ t.cols <;>
              simp [hR, hC, hS, Bind.bind, Except.bind, Except.isOk, Except.toBool]

/-!
## C7, C8, C3: the loader
-/

/-- A spreadsheet decoder for concrete instantiations (its behaviour is
irrelevant to the text-decoding claims). -/
def noExcel : List Nat → Except PyErr Table :=
  fun _ => Except.error PyErr.unicodeDecodeError

/-- C7: with no upload and a path that does not exist, the loader fails
with the source-not-found error (Python `FileNotFoundError`) and returns no
table. -/
theorem load_data_missing_path (readExcel : List Nat → Except PyErr Table)
    (fs : List (String × List Nat)) (file : String) (h : fs.lookup file = none) :
    load_data readExcel fs file none = Except.error (PyErr.fileNotFound file) := by
  unfold load_data decodeSource
  rw [h]
  rfl

/-- Witness for C7: the default path against an empty filesystem. -/
theorem load_data_missing_path_witness :
    (([] : List (String × List Nat)).lookup "data/Global_Superstore.csv" = none) ∧
      load_data noExcel [] "data/Global_Superstore.csv" none =
        Except.error (PyErr.fileNotFound "data/Global_Superstore.csv") :=
  ⟨rfl, load_data_missing_path noExcel [] "data/Global_Superstore.csv" rfl⟩

/-- C8: whenever the decode step yields a table, the loader returns it
(with trimmed column names) together with the list of absent expected
columns — the content of the non-fatal warning — and never fails because of
missing columns. -/
theorem load_data_decode_success (readExcel : List Nat → Except PyErr Table)
    (fs : List (String × List Nat)) (file : String) (uploaded : Option Upload)
    (d : Table) (h : decodeSource readExcel fs file uploaded = Except.ok d) :
    load_data readExcel fs file uploaded =
      Except.ok (stripCols d, missingCols (stripCols d)) := by
  unfold load_data
  rw [h]
  rfl

/-- A one-column CSV file (`"Region\nEast"` as bytes) whose decoded table
misses twenty of the twenty-one expected columns. -/
def fsC8 : List (String × List Nat) :=
  [("d.csv", [82, 101, 103, 105, 111, 110, 10, 69, 97, 115, 116])]

/-- The table decoded from `fsC8`. -/
def tC8 : Table :=
  { cols := ["Region"], rows := [[("Region", Value.str "East")]] }

/-- Witness for C8: the one-column file decodes, twenty expected columns
are missing, and the loader still returns the table with the warning
list. -/
theorem load_data_decode_success_witness :
    decodeSource noExcel fsC8 "d.csv" none = Except.ok tC8 ∧
      missingCols (stripCols tC8) ≠ [] ∧
      load_data noExcel fsC8 "d.csv" none =
        Except.ok (stripCols tC8, missingCols (stripCols tC8)) :=
  ⟨rfl, by decide, load_data_decode_success noExcel fsC8 "d.csv" none tC8 rfl⟩

/-- An uploaded CSV stream with one undecodable byte (0xFF). -/
def upC3 : Upload := { name := "upload.csv", content := [255, 65] }

/-- C3: the uploaded-CSV branch passes the unsupported keyword `errors` to
the CSV reader, so the call raises `TypeError` before decoding a single
byte — the loader never reaches the lossy-substitution behaviour the spec
describes and fails on every CSV upload. -/
theorem load_data_upload_csv_type_error :
    load_data noExcel [("data/Global_Superstore.csv", [82, 10])]
        "data/Global_Superstore.csv" (some upC3) =
      Except.error (PyErr.typeError "errors") := rfl

/-!
## C6: which missing columns are fatal to normalization
-/

theorem contains_true_of_mem {c : String} {l : List String} (h : c ∈ l) :
    l.contains c = true := by
  simp [List.contains, h]

theorem contains_false_of_not_mem {c : String} {l : List String} (h : c ∉ l) :
    l.contains c = false := by
  simp [List.contains, h]

theorem setColVals_cols (t : Table) (c : String) (vs : List Value) :
    (setColVals t c vs).cols = if t.cols.contains c then t.cols else t.cols ++ [c] := rfl

theorem coerceNumCol_cols (t : Table) (c : String) : (coerceNumCol t c).cols = t.cols := by
  by_cases hc : c ∈ t.cols
  · simp [coerceNumCol, hc, contains_true_of_mem hc, setColVals_cols]
  · simp [coerceNumCol, hc, contains_false_of_not_mem hc]

theorem coerceNums_cols (t : Table) : (coerceNums t).cols = t.cols := by
  unfold coerceNums
  rw [coerceNumCol_cols, coerceNumCol_cols, coerceNumCol_cols, coerceNumCol_cols]

/-- A table with both date columns and `Profit`, but no `Sales` column. -/
def tNoSales : Table :=
  { cols := ["Order Date", "Ship Date", "Profit"],
    rows := [[("Order Date", Value.str "01/02/2016"), ("Ship Date", Value.str "01/02/2016"),
              ("Profit", Value.str "5")]] }

/-- Counterexample to C6 as stated: a table that lacks only non-date
expected columns (among them `Sales`) still makes normalization fail — the
mandatory-row drop raises `KeyError: Sales`. -/
theorem preprocess_missing_sales_cex :
    tNoSales.cols.contains "Order Date" = true ∧
      tNoSales.cols.contains "Ship Date" = true ∧
      tNoSales.cols.contains "Sales" = false ∧
      preprocess tNoSales = Except.error (PyErr.keyError "Sales") :=
  ⟨rfl, rfl, rfl, rfl⟩

/-- C6 amended: normalization succeeds exactly when `Order Date`,
`Ship Date`, `Sales` and `Profit` are all present — a missing date column
halts via `st.stop`, and a missing `Sales`/`Profit` column is equally fatal
through the `KeyError` of the mandatory-row drop; only the remaining
expected columns are never fatal. -/
theorem preprocess_missing_fatal_amended (t : Table) :
    (preprocess t).isOk = true ↔
      ("Order Date" ∈ t.cols ∧ "Ship Date" ∈ t.cols ∧ "Sales" ∈ t.cols ∧
        "Profit" ∈ t.cols) := by
  by_cases hOD : "Order Date" ∈ t.cols <;>
    by_cases hSD : "Ship Date" ∈ t.cols <;>
      by_cases hS : "Sales" ∈ t.cols <;>
        by_cases hP : "Profit" ∈ t.cols <;>
          simp [preprocess, parseDates, parseDateCol, dropnaSubset, addOrderDateDate,
            coerceNums_cols, setColVals_cols, List.find?, Bind.bind, Except.bind,
            Except.isOk, Except.toBool, contains_true_of_mem, contains_false_of_not_mem,
            hOD, hSD, hS, hP]

/-!
## Row- and column-level lemmas shared by the normalizer proofs
-/

theorem lookup_setEntry_self (r : Row) (c : String) (v : Value) :
    (setEntry r c v).lookup c = some v := by
  induction r with
  | nil => simp [setEntry, List.lookup]
  | cons kv tl ih =>
    obtain ⟨k, w⟩ := kv
    by_cases h : k = c
    · simp [setEntry, h, List.lookup]
    · have hb : (c == k) = false := by simp [Ne.symm h]
      simp [setEntry, h, List.lookup, hb, ih]

theorem lookup_setEntry_ne (r : Row) (c c' : String) (v : Value) (h : c' ≠ c) :
    (setEntry r c v).lookup c' = r.lookup c' := by
  induction r with
  | nil =>
    have hb : (c' == c) = false := by simp [h]
    simp [setEntry, List.lookup, hb]
  | cons kv tl ih =>
    obtain ⟨k, w⟩ := kv
    by_cases hk : k = c
    · subst hk
      have hb : (c' == k) = false := by simp [h]
      simp [setEntry, List.lookup, hb, ih]
    · simp [setEntry, hk, List.lookup, ih]

theorem setEntry_lookup_eq_self (r : Row) (c : String) (v : Value)
    (h : r.lookup c = some v) : setEntry r c v = r := by
  induction r with
  | nil => simp [List.lookup] at h
  | cons kv tl ih =>
    obtain ⟨k, w⟩ := kv
    by_cases hk : k = c
    · subst hk
      simp [List.lookup] at h
      simp [setEntry, h]
    · have hb : (c == k) = false := by simp [Ne.symm hk]
      simp [List.lookup, hb] at h
      simp [setEntry, hk, ih h]

theorem zipWith_self_map {α β γ : Type} (f : α → β → γ) (g : α → β) (l : List α) :
    List.zipWith f l (l.map g) = l.map (fun x => f x (g x)) := by
  induction l with
  | nil => rfl
  | cons a tl ih => simp [ih]

theorem map_id_of_forall {α : Type} (f : α → α) (l : List α) (h : ∀ x ∈ l, f x = x) :
    l.map f = l := by
  induction l with
  | nil => rfl
  | cons a tl ih =>
    simp only [List.map_cons, h a (List.mem_cons_self a tl)]
    rw [ih (fun x hx => h x (List.mem_cons_of_mem a hx))]

/-- The rows produced by assigning to column `c` a series computed
pointwise from column `c2`. -/
theorem setColVals_map_rows (t : Table) (c c2 : String) (f : Value → Value) :
    (setColVals t c ((getColVals t c2).map f)).rows =
      t.rows.map (fun r => setEntry r c (f (getVal r c2))) := by
  unfold setColVals getColVals
  rw [List.map_map, zipWith_self_map]
  rfl

/-- Assigning to a column the values it already stores is the identity when
every row carries an entry for it. -/
theorem setColVals_of_lookup (t : Table) (c : String) (f : Row → Value)
    (hc : c ∈ t.cols) (h : ∀ r ∈ t.rows, r.lookup c = some (f r)) :
    setColVals t c (t.rows.map f) = t := by
  unfold setColVals
  rw [contains_true_of_mem hc, zipWith_self_map,
    map_id_of_forall _ _ (fun r hr => setEntry_lookup_eq_self r c (f r) (h r hr))]
  rfl

theorem mem_setColVals_cols_of_mem (t : Table) (c : String) (vs : List Value)
    (c2 : String) (h : c2 ∈ t.cols) : c2 ∈ (setColVals t c vs).cols := by
  unfold setColVals
  by_cases hc : c ∈ t.cols <;> simp [hc, h]

theorem mem_setColVals_cols_self (t : Table) (c : String) (vs : List Value) :
    c ∈ (setColVals t c vs).cols := by
  unfold setColVals
  by_cases hc : c ∈ t.cols
  · simp [contains_true_of_mem hc, hc]
  · simp [contains_false_of_not_mem hc, hc]

/-- `smart_parse_datetime` is one of the two pointwise parses. -/
theorem smart_parse_eq_map (vs : List Value) :
    ∃ b, smart_parse_datetime vs = vs.map (toDatetimeElem b) := by
  unfold smart_parse_datetime
  by_cases h : nullFracExceedsHalf (vs.map (toDatetimeElem false)) = true
  · exact ⟨true, by simp [h]⟩
  · exact ⟨false, by simp [h]⟩

/-- A datetime or a missing value. -/
def dtOrNull (v : Value) : Bool :=
  match v with
  | Value.dt _ => true
  | Value.null => true
  | _ => false

/-- A number or a missing value. -/
def numOrNull (v : Value) : Bool :=
  match v with
  | Value.num _ => true
  | Value.null => true
  | _ => false

theorem dtOrNull_toDatetimeElem (b : Bool) (v : Value) :
    dtOrNull (toDatetimeElem b v) = true := by
  cases v <;> simp [toDatetimeElem, dtOrNull]
  case str s => cases hp : parseDateStr b s <;> simp [hp, dtOrNull]

theorem numOrNull_toNumericElem (v : Value) : numOrNull (toNumericElem v) = true := by
  cases v <;> simp [toNumericElem, numOrNull]
  case str s => cases charsToInt s.data <;> simp [numOrNull]

theorem getVal_setEntry_ne (r : Row) (c c' : String) (v : Value) (h : c' ≠ c) :
    getVal (setEntry r c v) c' = getVal r c' := by
  unfold getVal
  rw [lookup_setEntry_ne r c c' v h]

theorem addOrderDateDate_rows (u : Table) :
    (addOrderDateDate u).rows =
      u.rows.map
        (fun r => setEntry r "Order Date (Date)" (dtDateElem (getVal r "Order Date"))) := by
  unfold addOrderDateDate
  exact setColVals_map_rows u "Order Date (Date)" "Order Date" dtDateElem

/-!
## C4: the mandatory-null row drop
-/

/-- C4: whenever normalization succeeds, every output row has non-null
`Order Date`, `Sales` and `Profit`, and the output rows are exactly the
parsed-and-coerced input rows that pass the mandatory-null test (each with
the derived calendar-date column added): rows with a null mandatory field
are absent, all other rows — nulls in `Ship Date`, `Discount` or
`Quantity` included — are present. -/
theorem preprocess_mandatory_drop (t a o : Table)
    (ha : parseDates t = Except.ok a) (h : preprocess t = Except.ok o) :
    (∀ r ∈ o.rows, isNullV (getVal r "Order Date") = false ∧
        isNullV (getVal r "Sales") = false ∧ isNullV (getVal r "Profit") = false) ∧
      o.rows = ((coerceNums a).rows.filter keepRow).map
        (fun r => setEntry r "Order Date (Date)" (dtDateElem (getVal r "Order Date"))) := by
  unfold preprocess at h
  rw [ha] at h
  simp only [Bind.bind, Except.bind] at h
  cases hd : dropnaSubset (coerceNums a) ["Order Date", "Sales", "Profit"] with
  | error e =>
    rw [hd] at h
    cases h
  | ok t4 =>
    rw [hd] at h
    cases h
    unfold dropnaSubset at hd
    cases hf : List.find? (fun c => !(coerceNums a).cols.contains c)
        ["Order Date", "Sales", "Profit"] with
    | some c =>
      rw [hf] at hd
      cases hd
    | none =>
      rw [hf] at hd
      cases hd
      constructor
      · intro r hr
        rw [addOrderDateDate_rows] at hr
        obtain ⟨r4, hr4, rfl⟩ := List.mem_map.mp hr
        obtain ⟨hmem, hkeep⟩ := List.mem_filter.mp hr4
        simp only [keepRow, List.all_cons, List.all_nil, Bool.and_eq_true,
          Bool.not_eq_true', Bool.and_true] at hkeep
        refine ⟨?hOD, ?hS, ?hP⟩
        · rw [getVal_setEntry_ne _ _ _ _ (by decide)]
          exact hkeep.1
        · rw [getVal_setEntry_ne _ _ _ _ (by decide)]
          exact hkeep.2.1
        · rw [getVal_setEntry_ne _ _ _ _ (by decide)]
          exact hkeep.2.2
      · rw [addOrderDateDate_rows]
        rfl

/-- A raw table whose second row has an uncoercible `Sales` cell. -/
def tC4 : Table :=
  { cols := ["Order Date", "Ship Date", "Sales", "Profit"],
    rows := [
      [("Order Date", Value.str "03/04/2016"), ("Ship Date", Value.str "03/04/2016"),
       ("Sales", Value.str "100"), ("Profit", Value.str "10")],
      [("Order Date", Value.str "04/05/2016"), ("Ship Date", Value.str "04/05/2016"),
       ("Sales", Value.str "bad"), ("Profit", Value.str "5")]] }

/-- `tC4` after the date-parsing loop. -/
def aC4 : Table :=
  { cols := ["Order Date", "Ship Date", "Sales", "Profit"],
    rows := [
      [("Order Date", Value.dt 20160304), ("Ship Date", Value.dt 20160304),
       ("Sales", Value.str "100"), ("Profit", Value.str "10")],
      [("Order Date", Value.dt 20160405), ("Ship Date", Value.dt 20160405),
       ("Sales", Value.str "bad"), ("Profit", Value.str "5")]] }

/-- `tC4` normalized: the second row is dropped (its `Sales` coerced to
null), the first survives with the derived calendar-date column. -/
def tC4out : Table :=
  { cols := ["Order Date", "Ship Date", "Sales", "Profit", "Order Date (Date)"],
    rows := [
      [("Order Date", Value.dt 20160304), ("Ship Date", Value.dt 20160304),
       ("Sales", Value.num 100), ("Profit", Value.num 10),
       ("Order Date (Date)", Value.date 20160304)]] }

/-- Witness for C4: the two-row table; the row whose `Sales` fails numeric
coercion is dropped and the surviving row has all mandatory fields
non-null. -/
theorem preprocess_mandatory_drop_witness :
    parseDates tC4 = Except.ok aC4 ∧ preprocess tC4 = Except.ok tC4out ∧
      ((∀ r ∈ tC4out.rows, isNullV (getVal r "Order Date") = false ∧
          isNullV (getVal r "Sales") = false ∧ isNullV (getVal r "Profit") = false) ∧
        tC4out.rows = ((coerceNums aC4).rows.filter keepRow).map
          (fun r =>
            setEntry r "Order Date (Date)" (dtDateElem (getVal r "Order Date")))) :=
  ⟨rfl, rfl, preprocess_mandatory_drop tC4 aC4 tC4out rfl rfl⟩

/-!
## C9: idempotence of normalization

`GoodTable` is the shape invariant `preprocess` establishes; a table of
this shape is a fixed point of `preprocess`.
-/

/-- The shape of a normalized table: the two date columns, the two
mandatory numeric columns and the derived calendar-date column are present;
every row stores a non-null datetime order date, a datetime-or-null ship
date, numeric sales and profit, numeric-or-null discount/quantity when
those columns exist, and the derived date consistent with the order
date. -/
def GoodTable (u : Table) : Prop :=
  ("Order Date" ∈ u.cols ∧ "Ship Date" ∈ u.cols ∧ "Sales" ∈ u.cols ∧
    "Profit" ∈ u.cols ∧ "Order Date (Date)" ∈ u.cols) ∧
  ∀ r ∈ u.rows,
    (∃ d, r.lookup "Order Date" = some (Value.dt d)) ∧
    (∃ v, r.lookup "Ship Date" = some v ∧ dtOrNull v = true) ∧
    (∃ n, r.lookup "Sales" = some (Value.num n)) ∧
    (∃ n, r.lookup "Profit" = some (Value.num n)) ∧
    ("Discount" ∈ u.cols → ∃ v, r.lookup "Discount" = some v ∧ numOrNull v = true) ∧
    ("Quantity" ∈ u.cols → ∃ v, r.lookup "Quantity" = some v ∧ numOrNull v = true) ∧
    r.lookup "Order Date (Date)" = some (dtDateElem (getVal r "Order Date"))

theorem toDatetimeElem_of_dtOrNull (b : Bool) (v : Value) (h : dtOrNull v = true) :
    toDatetimeElem b v = v := by
  cases v with
  | dt code => rfl
  | null => rfl
  | str s => simp [dtOrNull] at h
  | num n => simp [dtOrNull] at h
  | date code => simp [dtOrNull] at h

theorem toNumericElem_of_numOrNull (v : Value) (h : numOrNull v = true) :
    toNumericElem v = v := by
  cases v with
  | num n => rfl
  | null => rfl
  | str s => simp [numOrNull] at h
  | dt code => simp [numOrNull] at h
  | date code => simp [numOrNull] at h

theorem dt_of_dtOrNull_not_null (v : Value) (h1 : dtOrNull v = true)
    (h2 : isNullV v = false) : ∃ d, v = Value.dt d := by
  cases v with
  | dt code => exact ⟨code, rfl⟩
  | null => simp [isNullV] at h2
  | str s => simp [dtOrNull] at h1
  | num n => simp [dtOrNull] at h1
  | date code => simp [dtOrNull] at h1

theorem num_of_numOrNull_not_null (v : Value) (h1 : numOrNull v = true)
    (h2 : isNullV v = false) : ∃ n, v = Value.num n := by
  cases v with
  | num n => exact ⟨n, rfl⟩
  | null => simp [isNullV] at h2
  | str s => simp [numOrNull] at h1
  | dt code => simp [numOrNull] at h1
  | date code => simp [numOrNull] at h1

theorem smart_parse_id_of_dtOrNull (vs : List Value)
    (h : ∀ v ∈ vs, dtOrNull v = true) : smart_parse_datetime vs = vs := by
  have h1 : vs.map (toDatetimeElem false) = vs :=
    map_id_of_forall _ _ (fun v hv => toDatetimeElem_of_dtOrNull false v (h v hv))
  have h2 : vs.map (toDatetimeElem true) = vs :=
    map_id_of_forall _ _ (fun v hv => toDatetimeElem_of_dtOrNull true v (h v hv))
  have e : smart_parse_datetime vs =
      if nullFracExceedsHalf (vs.map (toDatetimeElem false)) then
        vs.map (toDatetimeElem true)
      else vs.map (toDatetimeElem false) := rfl
  rw [e, h1, h2, ite_self]

theorem parseDateCol_id (u : Table) (c : String) (hc : c ∈ u.cols)
    (hvals : ∀ r ∈ u.rows, ∃ v, r.lookup c = some v ∧ dtOrNull v = true) :
    parseDateCol u c = Except.ok u := by
  unfold parseDateCol
  rw [if_pos (contains_true_of_mem hc)]
  have hsp : smart_parse_datetime (getColVals u c) = getColVals u c := by
    refine smart_parse_id_of_dtOrNull _ (fun v hv => ?a)
    obtain ⟨r, hr, rfl⟩ := List.mem_map.mp hv
    obtain ⟨w, hl, hw⟩ := hvals r hr
    have : getVal r c = w := by unfold getVal; rw [hl]
    rw [this]
    exact hw
  rw [hsp]
  refine congrArg Except.ok (setColVals_of_lookup u c (fun r => getVal r c) hc ?b)
  intro r hr
  obtain ⟨w, hl, _⟩ := hvals r hr
  have : getVal r c = w := by unfold getVal; rw [hl]
  show List.lookup c r = some (getVal r c)
  rw [this]
  exact hl

theorem coerceNumCol_id (u : Table) (c : String)
    (hvals : c ∈ u.cols → ∀ r ∈ u.rows, ∃ v, r.lookup c = some v ∧ numOrNull v = true) :
    coerceNumCol u c = u := by
  unfold coerceNumCol
  by_cases hc : c ∈ u.cols
  · rw [if_pos (contains_true_of_mem hc)]
    have hmap : (getColVals u c).map toNumericElem = getColVals u c := by
      refine map_id_of_forall _ _ (fun v hv => ?a)
      obtain ⟨r, hr, rfl⟩ := List.mem_map.mp hv
      obtain ⟨w, hl, hw⟩ := hvals hc r hr
      have : getVal r c = w := by unfold getVal; rw [hl]
      rw [this]
      exact toNumericElem_of_numOrNull w hw
    rw [hmap]
    refine setColVals_of_lookup u c (fun r => getVal r c) hc ?b
    intro r hr
    obtain ⟨w, hl, _⟩ := hvals hc r hr
    have : getVal r c = w := by unfold getVal; rw [hl]
    show List.lookup c r = some (getVal r c)
    rw [this]
    exact hl
  · rw [if_neg (by simp [hc])]

/-- A table of normalized shape is a fixed point of `preprocess`. -/
theorem preprocess_good_fixed (u : Table) (hg : GoodTable u) :
    preprocess u = Except.ok u := by
  obtain ⟨⟨hOD, hSD, hS, hP, hODD⟩, hrows⟩ := hg
  have hpOD : parseDateCol u "Order Date" = Except.ok u :=
    parseDateCol_id u _ hOD (fun r hr => by
      obtain ⟨⟨d, hl⟩, _⟩ := hrows r hr
      exact ⟨Value.dt d, hl, rfl⟩)
  have hpSD : parseDateCol u "Ship Date" = Except.ok u :=
    parseDateCol_id u _ hSD (fun r hr => by
      obtain ⟨_, hv, _⟩ := hrows r hr
      exact hv)
  have hparse : parseDates u = Except.ok u := by
    unfold parseDates
    rw [hpOD]
    simp only [Bind.bind, Except.bind]
    exact hpSD
  have hcS : coerceNumCol u "Sales" = u :=
    coerceNumCol_id u _ (fun _ r hr => by
      obtain ⟨_, _, ⟨n, hl⟩, _⟩ := hrows r hr
      exact ⟨Value.num n, hl, rfl⟩)
  have hcP : coerceNumCol u "Profit" = u :=
    coerceNumCol_id u _ (fun _ r hr => by
      obtain ⟨_, _, _, ⟨n, hl⟩, _⟩ := hrows r hr
      exact ⟨Value.num n, hl, rfl⟩)
  have hcD : coerceNumCol u "Discount" = u :=
    coerceNumCol_id u _ (fun hmem r hr => by
      obtain ⟨_, _, _, _, hdisc, _⟩ := hrows r hr
      exact hdisc hmem)
  have hcQ : coerceNumCol u "Quantity" = u :=
    coerceNumCol_id u _ (fun hmem r hr => by
      obtain ⟨_, _, _, _, _, hquan, _⟩ := hrows r hr
      exact hquan hmem)
  have hco : coerceNums u = u := by
    unfold coerceNums
    rw [hcS, hcP, hcD, hcQ]
  have hkeep : ∀ r ∈ u.rows,
      (["Order Date", "Sales", "Profit"].all (fun c => !isNullV (getVal r c))) = true := by
    intro r hr
    obtain ⟨⟨d, hlOD⟩, _, ⟨n1, hlS⟩, ⟨n2, hlP⟩, _⟩ := hrows r hr
    have g1 : getVal r "Order Date" = Value.dt d := by unfold getVal; rw [hlOD]
    have g2 : getVal r "Sales" = Value.num n1 := by unfold getVal; rw [hlS]
    have g3 : getVal r "Profit" = Value.num n2 := by unfold getVal; rw [hlP]
    simp [g1, g2, g3, isNullV]
  have hdrop : dropnaSubset u ["Order Date", "Sales", "Profit"] = Except.ok u := by
    unfold dropnaSubset
    have hfind : List.find? (fun c => !u.cols.contains c)
        ["Order Date", "Sales", "Profit"] = none := by
      simp [List.find?, hOD, hS, hP]
    rw [hfind, List.filter_eq_self.mpr hkeep]
  have haddd : addOrderDateDate u = u := by
    unfold addOrderDateDate
    have hm : (getColVals u "Order Date").map dtDateElem =
        u.rows.map (fun r => dtDateElem (getVal r "Order Date")) := by
      unfold getColVals
      rw [List.map_map]
      rfl
    rw [hm]
    exact setColVals_of_lookup u _ _ hODD (fun r hr => by
      obtain ⟨_, _, _, _, _, _, hlD⟩ := hrows r hr
      exact hlD)
  unfold preprocess
  rw [hparse]
  simp only [Bind.bind, Except.bind]
  rw [hco, hdrop]
  show Except.ok (addOrderDateDate u) = Except.ok u
  rw [haddd]

/-- One conditional numeric assignment, as it acts on a single row. -/
def condNumSet (p : Bool) (c : String) (r : Row) : Row :=
  if p then setEntry r c (toNumericElem (getVal r c)) else r

theorem lookup_condNumSet_ne (p : Bool) (c c' : String) (r : Row) (h : c' ≠ c) :
    (condNumSet p c r).lookup c' = r.lookup c' := by
  cases p with
  | false => rfl
  | true => exact lookup_setEntry_ne r c c' _ h

theorem lookup_condNumSet_self (c : String) (r : Row) :
    (condNumSet true c r).lookup c = some (toNumericElem (getVal r c)) :=
  lookup_setEntry_self r c _

theorem coerceNumCol_rows (t : Table) (c : String) :
    (coerceNumCol t c).rows = t.rows.map (condNumSet (t.cols.contains c) c) := by
  by_cases hc : c ∈ t.cols
  · have hb := contains_true_of_mem hc
    unfold coerceNumCol
    rw [if_pos hb, setColVals_map_rows t c c toNumericElem, hb]
    rfl
  · have hb := contains_false_of_not_mem hc
    unfold coerceNumCol
    rw [if_neg (by simp [hc]), hb]
    exact (map_id_of_forall _ _ (fun r hr => rfl)).symm

theorem coerceNums_rows (a : Table) :
    (coerceNums a).rows = a.rows.map (fun r =>
      condNumSet (a.cols.contains "Quantity") "Quantity"
        (condNumSet (a.cols.contains "Discount") "Discount"
          (condNumSet (a.cols.contains "Profit") "Profit"
            (condNumSet (a.cols.contains "Sales") "Sales" r)))) := by
  unfold coerceNums
  rw [coerceNumCol_rows, coerceNumCol_cols, coerceNumCol_cols, coerceNumCol_cols,
    coerceNumCol_rows, coerceNumCol_cols, coerceNumCol_cols,
    coerceNumCol_rows, coerceNumCol_cols,
    coerceNumCol_rows, List.map_map, List.map_map, List.map_map]
  rfl

theorem mem_setColVals_cols_ne_inv (t : Table) (c : String) (vs : List Value)
    (c2 : String) (h : c2 ∈ (setColVals t c vs).cols) (hne : c2 ≠ c) : c2 ∈ t.cols := by
  by_cases hc : c ∈ t.cols
  · simpa [setColVals, hc] using h
  · have h2 : c2 ∈ t.cols ∨ c2 = c := by
      simpa [setColVals, hc] using h
    rcases h2 with h2 | h2
    · exact h2
    · exact absurd h2 hne

/-- The facts a successful `parseDateCol` yields: the column was present,
the columns are unchanged, and the rows got the column overwritten with one
of the two pointwise parses. -/
theorem parseDateCol_ok_facts (t u : Table) (c : String)
    (h : parseDateCol t c = Except.ok u) :
    c ∈ t.cols ∧ ∃ b : Bool, u.cols = t.cols ∧
      u.rows = t.rows.map (fun r => setEntry r c (toDatetimeElem b (getVal r c))) := by
  unfold parseDateCol at h
  by_cases hc : c ∈ t.cols
  · rw [if_pos (contains_true_of_mem hc)] at h
    obtain ⟨b, hb⟩ := smart_parse_eq_map (getColVals t c)
    cases h
    refine ⟨hc, b, ?cols, ?rows⟩
    · simp [setColVals, hc]
    · rw [hb]
      exact setColVals_map_rows t c c _
  · rw [if_neg (by simp [hc])] at h
    cases h

/-- The facts a successful `dropnaSubset` yields. -/
theorem dropnaSubset_ok_facts (t u : Table) (subset : List String)
    (h : dropnaSubset t subset = Except.ok u) :
    (∀ c ∈ subset, c ∈ t.cols) ∧ u.cols = t.cols ∧
      u.rows = t.rows.filter (fun r => subset.all (fun c => !isNullV (getVal r c))) := by
  unfold dropnaSubset at h
  cases hf : List.find? (fun c => !t.cols.contains c) subset with
  | some c =>
    rw [hf] at h
    cases h
  | none =>
    rw [hf] at h
    cases h
    refine ⟨?mem, rfl, rfl⟩
    intro c hcmem
    have hfc := List.find?_eq_none.mp hf c hcmem
    simpa using hfc

theorem getVal_condNumSet_ne (p : Bool) (c c' : String) (r : Row) (h : c' ≠ c) :
    getVal (condNumSet p c r) c' = getVal r c' := by
  unfold getVal
  rw [lookup_condNumSet_ne p c c' r h]

theorem getVal_condNumSet_self (c : String) (r : Row) :
    getVal (condNumSet true c r) c = toNumericElem (getVal r c) := by
  unfold getVal
  rw [lookup_condNumSet_self]
  rfl

theorem getVal_setEntry_self (r : Row) (c : String) (v : Value) :
    getVal (setEntry r c v) c = v := by
  unfold getVal
  rw [lookup_setEntry_self]

/-- A successful `preprocess` always produces a table of normalized
shape. -/
theorem preprocess_ok_good (t o : Table) (h : preprocess t = Except.ok o) :
    GoodTable o := by
  unfold preprocess at h
  cases hp : parseDates t with
  | error e =>
    rw [hp] at h
    simp only [Bind.bind, Except.bind] at h
    cases h
  | ok a =>
  rw [hp] at h
  simp only [Bind.bind, Except.bind] at h
  cases hd : dropnaSubset (coerceNums a) ["Order Date", "Sales", "Profit"] with
  | error e =>
    rw [hd] at h
    cases h
  | ok t4 =>
  rw [hd] at h
  cases h
  unfold parseDates at hp
  cases h1 : parseDateCol t "Order Date" with
  | error e =>
    rw [h1] at hp
    simp only [Bind.bind, Except.bind] at hp
    cases hp
  | ok t1 =>
  rw [h1] at hp
  simp only [Bind.bind, Except.bind] at hp
  obtain ⟨hODt, b1, ht1cols, ht1rows⟩ := parseDateCol_ok_facts t t1 "Order Date" h1
  obtain ⟨hSDt1, b2, hacols, harows⟩ := parseDateCol_ok_facts t1 a "Ship Date" hp
  obtain ⟨hsub, ht4cols, ht4rows⟩ := dropnaSubset_ok_facts (coerceNums a) t4 _ hd
  have hcolsCo : (coerceNums a).cols = a.cols := coerceNums_cols a
  have hODa : "Order Date" ∈ a.cols := by rw [hacols, ht1cols]; exact hODt
  have hSDa : "Ship Date" ∈ a.cols := by rw [hacols]; exact hSDt1
  have hSa : "Sales" ∈ a.cols := by
    have hx := hsub "Sales" (by simp)
    rwa [hcolsCo] at hx
  have hPa : "Profit" ∈ a.cols := by
    have hx := hsub "Profit" (by simp)
    rwa [hcolsCo] at hx
  have ht4a : t4.cols = a.cols := by rw [ht4cols, hcolsCo]
  have hpS : a.cols.contains "Sales" = true := contains_true_of_mem hSa
  have hpP : a.cols.contains "Profit" = true := contains_true_of_mem hPa
  refine ⟨⟨mem_setColVals_cols_of_mem t4 _ _ _ (by rw [ht4a]; exact hODa),
    mem_setColVals_cols_of_mem t4 _ _ _ (by rw [ht4a]; exact hSDa),
    mem_setColVals_cols_of_mem t4 _ _ _ (by rw [ht4a]; exact hSa),
    mem_setColVals_cols_of_mem t4 _ _ _ (by rw [ht4a]; exact hPa),
    mem_setColVals_cols_self t4 _ _⟩, ?rows⟩
  intro r hr
  rw [addOrderDateDate_rows] at hr
  obtain ⟨r4, hr4, rfl⟩ := List.mem_map.mp hr
  rw [ht4rows] at hr4
  obtain ⟨hr3, hkeep⟩ := List.mem_filter.mp hr4
  rw [coerceNums_rows] at hr3
  obtain ⟨r2, hr2, rfl⟩ := List.mem_map.mp hr3
  rw [harows] at hr2
  obtain ⟨r1, hr1, rfl⟩ := List.mem_map.mp hr2
  rw [ht1rows] at hr1
  obtain ⟨r0, hr0, rfl⟩ := List.mem_map.mp hr1
  simp only [List.all_cons, List.all_nil, Bool.and_eq_true, Bool.and_true,
    Bool.not_eq_true'] at hkeep
  obtain ⟨hk1, hk2, hk3⟩ := hkeep
  rw [getVal_condNumSet_ne _ "Quantity" "Order Date" _ (by decide),
    getVal_condNumSet_ne _ "Discount" "Order Date" _ (by decide),
    getVal_condNumSet_ne _ "Profit" "Order Date" _ (by decide),
    getVal_condNumSet_ne _ "Sales" "Order Date" _ (by decide),
    getVal_setEntry_ne _ "Ship Date" "Order Date" _ (by decide),
    getVal_setEntry_self] at hk1
  rw [getVal_condNumSet_ne _ "Quantity" "Sales" _ (by decide),
    getVal_condNumSet_ne _ "Discount" "Sales" _ (by decide),
    getVal_condNumSet_ne _ "Profit" "Sales" _ (by decide),
    hpS, getVal_condNumSet_self] at hk2
  rw [getVal_condNumSet_ne _ "Quantity" "Profit" _ (by decide),
    getVal_condNumSet_ne _ "Discount" "Profit" _ (by decide),
    hpP, getVal_condNumSet_self] at hk3
  refine ⟨?hOD, ?hSD, ?hSales, ?hProfit, ?hDisc, ?hQuan, ?hODDf⟩
  case hOD =>
    rw [lookup_setEntry_ne _ "Order Date (Date)" "Order Date" _ (by decide),
      lookup_condNumSet_ne _ "Quantity" "Order Date" _ (by decide),
      lookup_condNumSet_ne _ "Discount" "Order Date" _ (by decide),
      lookup_condNumSet_ne _ "Profit" "Order Date" _ (by decide),
      lookup_condNumSet_ne _ "Sales" "Order Date" _ (by decide),
      lookup_setEntry_ne _ "Ship Date" "Order Date" _ (by decide),
      lookup_setEntry_self]
    obtain ⟨d, hv⟩ := dt_of_dtOrNull_not_null _ (dtOrNull_toDatetimeElem b1 _) hk1
    exact ⟨d, by rw [hv]⟩
  case hSD =>
    rw [lookup_setEntry_ne _ "Order Date (Date)" "Ship Date" _ (by decide),
      lookup_condNumSet_ne _ "Quantity" "Ship Date" _ (by decide),
      lookup_condNumSet_ne _ "Discount" "Ship Date" _ (by decide),
      lookup_condNumSet_ne _ "Profit" "Ship Date" _ (by decide),
      lookup_condNumSet_ne _ "Sales" "Ship Date" _ (by decide),
      lookup_setEntry_self]
    exact ⟨_, rfl, dtOrNull_toDatetimeElem b2 _⟩
  case hSales =>
    rw [lookup_setEntry_ne _ "Order Date (Date)" "Sales" _ (by decide),
      lookup_condNumSet_ne _ "Quantity" "Sales" _ (by decide),
      lookup_condNumSet_ne _ "Discount" "Sales" _ (by decide),
      lookup_condNumSet_ne _ "Profit" "Sales" _ (by decide),
      hpS, lookup_condNumSet_self]
    obtain ⟨n, hv⟩ := num_of_numOrNull_not_null _ (numOrNull_toNumericElem _) hk2
    exact ⟨n, by rw [hv]⟩
  case hProfit =>
    rw [lookup_setEntry_ne _ "Order Date (Date)" "Profit" _ (by decide),
      lookup_condNumSet_ne _ "Quantity" "Profit" _ (by decide),
      lookup_condNumSet_ne _ "Discount" "Profit" _ (by decide),
      hpP, lookup_condNumSet_self]
    obtain ⟨n, hv⟩ := num_of_numOrNull_not_null _ (numOrNull_toNumericElem _) hk3
    exact ⟨n, by rw [hv]⟩
  case hDisc =>
    intro hmem
    have hDa : "Discount" ∈ a.cols := by
      have hx := mem_setColVals_cols_ne_inv t4 _ _ _ hmem (by decide)
      rwa [ht4a] at hx
    have hpD : a.cols.contains "Discount" = true := contains_true_of_mem hDa
    rw [lookup_setEntry_ne _ "Order Date (Date)" "Discount" _ (by decide),
      lookup_condNumSet_ne _ "Quantity" "Discount" _ (by decide),
      hpD, lookup_condNumSet_self]
    exact ⟨_, rfl, numOrNull_toNumericElem _⟩
  case hQuan =>
    intro hmem
    have hQa : "Quantity" ∈ a.cols := by
      have hx := mem_setColVals_cols_ne_inv t4 _ _ _ hmem (by decide)
      rwa [ht4a] at hx
    have hpQ : a.cols.contains "Quantity" = true := contains_true_of_mem hQa
    rw [lookup_setEntry_ne _ "Order Date (Date)" "Quantity" _ (by decide),
      hpQ, lookup_condNumSet_self]
    exact ⟨_, rfl, numOrNull_toNumericElem _⟩
  case hODDf =>
    rw [lookup_setEntry_self, getVal_setEntry_ne _ "Order Date (Date)" "Order Date" _
      (by decide)]

/-- C9: normalization is idempotent — whenever `preprocess` succeeds,
running it again on its own output (re-parsing the already-dated columns
and re-coercing the already-numeric columns) returns that output
unchanged. -/
theorem preprocess_idempotent (x o : Table) (h : preprocess x = Except.ok o) :
    preprocess o = Except.ok o :=
  preprocess_good_fixed o (preprocess_ok_good x o h)

/-- Witness for C9 at the concrete two-row table: its normalization is a
fixed point of `preprocess`. -/
theorem preprocess_idempotent_witness :
    preprocess tC4 = Except.ok tC4out ∧ preprocess tC4out = Except.ok tC4out :=
  ⟨rfl, preprocess_idempotent tC4 tC4out rfl⟩
